import Mathlib

/-!
Shallow embedding of the two analysis scripts of the mobilitydcatap-study
repository: `property-analysis/property_analysis.py` (compliance evaluation)
and `vocabulary-checker/dcat_vocabulary_checker.py` (vocabulary-control
classification).  Python dictionaries are modelled as association lists over
`String` keys; the SPARQL endpoint is modelled as an oracle function giving,
for each request (identified by the catalog being processed and the query
text), either the parsed response or `none` for a transport failure — exactly
the two outcomes `execute_sparql` can deliver to its callers.  Python float
divisions compared against the literals `0.8` and `0.7` are modelled as exact
rational comparisons written with cross-multiplication over `Nat`.
-/

/-- Association-list update, modelling Python dict assignment `d[k] = v`:
if the key is present its value is replaced in place, otherwise the pair is
appended. -/
def alSet {α : Type} : List (String × α) → String → α → List (String × α)
  | [], key, v => [(key, v)]
  | (k, w) :: rest, key, v =>
    if k = key then (k, v) :: rest else (k, w) :: alSet rest key v

/-- Association-list lookup, modelling Python dict access `d.get(k)`. -/
def alGet {α : Type} : List (String × α) → String → Option α
  | [], _ => none
  | (k, v) :: rest, key => if k = key then some v else alGet rest key

/-- `self.results[catalog][key] = v` on a `defaultdict(dict)`: the missing
outer entry defaults to the empty dict, and the inner assignment silently
replaces whatever was stored at `key` before. -/
def setResult {α : Type} (results : List (String × List (String × α)))
    (catalog key : String) (v : α) : List (String × List (String × α)) :=
  alSet results catalog (alSet ((alGet results catalog).getD []) key v)

/-- Read `self.results[catalog][key]`. -/
def getResult {α : Type} (results : List (String × List (String × α)))
    (catalog key : String) : Option α :=
  (alGet results catalog).bind (fun row => alGet row key)

/-- The per-catalog entity sets built by `get_catalog_entities`: the Python
dict with keys `catalogs`, `datasets`, `distributions`, `records`. -/
structure CatalogEntities where
  catalogs : List String
  datasets : List String
  distributions : List String
  records : List String
deriving Repr, DecidableEq

/-- The value stored by `analyze_property` for one (catalog, property, class)
key: the dict `{entities_with_property: ..., total_entities: ...}`. -/
structure PropertyObservation where
  entities_with_property : Nat
  total_entities : Nat
deriving Repr, DecidableEq

/-- The value stored by `check_property_vocabulary` for one key: the dict
`{total_<entity_type>: ..., entities_with_property: ..., values_found: ...,
unique_values: ..., has_controlled_vocab: ...}`. -/
structure VocabularyObservation where
  total_entities : Nat
  entities_with_property : Nat
  values_found : List (String × Nat)
  unique_values : Nat
  has_controlled_vocab : Bool
deriving Repr, DecidableEq

/-- The Python idiom `if x not in lst: lst.append(x)` used throughout
`get_catalog_entities` to deduplicate entity identifiers. -/
def insertIfAbsent (l : List String) (x : String) : List String :=
  if x ∈ l then l else l ++ [x]

/-- One step of the dataset loop of `get_catalog_entities`: a result row binds
`?dataset` and optionally `?distribution`; each is appended to its set if not
already present. -/
def datasetRowStep (e : CatalogEntities) (row : String × Option String) :
    CatalogEntities :=
  let e1 := { e with datasets := insertIfAbsent e.datasets row.1 }
  match row.2 with
  | some d => { e1 with distributions := insertIfAbsent e1.distributions d }
  | none => e1

/-- The per-catalog body of `get_catalog_entities`: starting from the node
`{catalogs: [catalog], datasets: [], distributions: [], records: []}`, fold
the rows of the dataset/distribution query (if it succeeded) and then the
rows of the record query (if it succeeded).  A failed per-catalog query
leaves the corresponding sets as they were. -/
def resolveCatalog (datasetOracle : String → Option (List (String × Option String)))
    (recordOracle : String → Option (List String)) (catalog : String) :
    CatalogEntities :=
  let base : CatalogEntities := ⟨[catalog], [], [], []⟩
  let afterDs :=
    match datasetOracle catalog with
    | none => base
    | some rows => rows.foldl datasetRowStep base
  match recordOracle catalog with
  | none => afterDs
  | some recs => { afterDs with records := recs.foldl insertIfAbsent afterDs.records }

/-- `get_catalog_entities`: `containerOracle` is the outcome of the
container-discovery query (`none` models both a transport failure and a falsy
response, after which the function returns the empty dict); each discovered
catalog is resolved and entered into the result dict. -/
def get_catalog_entities (containerOracle : Option (List String))
    (datasetOracle : String → Option (List (String × Option String)))
    (recordOracle : String → Option (List String)) :
    List (String × CatalogEntities) :=
  match containerOracle with
  | none => []
  | some catalogs =>
    catalogs.foldl
      (fun acc catalog => alSet acc catalog (resolveCatalog datasetOracle recordOracle catalog))
      []

/-- The `entity_type_map` dict of `analyze_property`. -/
def entityTypeMap (entityType : String) : Option String :=
  if entityType = "dcat:Catalog" then some "catalogs"
  else if entityType = "dcat:Dataset" then some "datasets"
  else if entityType = "dcat:Distribution" then some "distributions"
  else if entityType = "dcat:CatalogRecord" then some "records"
  else none

/-- `entities.get(entity_list_key, [])`. -/
def getEntityList (key : String) (e : CatalogEntities) : List String :=
  if key = "catalogs" then e.catalogs
  else if key = "datasets" then e.datasets
  else if key = "distributions" then e.distributions
  else if key = "records" then e.records
  else []

/-- The aggregator key `f"{property_uri} ({entity_type})"`. -/
def propKey (property_uri entity_type : String) : String :=
  property_uri ++ " (" ++ entity_type ++ ")"

/-- `' '.join([f"<{entity}>" for entity in entity_list])`. -/
def entity_filter (entity_list : List String) : String :=
  String.intercalate " " (entity_list.map (fun e => "<" ++ e ++ ">"))

/-- The counting query text built by `analyze_property` (whitespace
normalised to single spaces). -/
def complianceQuery (property_uri : String) (entity_list : List String) : String :=
  "SELECT (COUNT(DISTINCT ?entity) as ?count) WHERE \x7b VALUES ?entity \x7b " ++
    entity_filter entity_list ++ " \x7d ?entity <" ++ property_uri ++
    "> ?value . \x7d"

/-- Per-catalog results of the SPARQL endpoint for the compliance counting
queries: a response is identified by the catalog being processed and the
query text; `none` covers both a transport failure and a response without
bindings, after either of which `analyze_property` keeps
`entities_with_property = 0`. -/
abbrev CountOracle := String → String → Option Nat

/-- The body of the catalog loop of `analyze_property`.  The accumulator
carries the results dict together with the list of `(catalog, query)`
requests issued so far (most recent first).  An empty entity list stores the
`{0, 0}` sentinel without issuing a request; otherwise the counting query is
issued and its response (default `0`) is stored next to the enumerated set's
size. -/
def analyzePropertyStep (property_uri entity_type entity_list_key : String)
    (oracle : CountOracle)
    (acc : List (String × List (String × PropertyObservation)) × List (String × String))
    (entry : String × CatalogEntities) :
    List (String × List (String × PropertyObservation)) × List (String × String) :=
  let entity_list := getEntityList entity_list_key entry.2
  if entity_list.isEmpty then
    (setResult acc.1 entry.1 (propKey property_uri entity_type) ⟨0, 0⟩, acc.2)
  else
    let q := complianceQuery property_uri entity_list
    let cnt := (oracle entry.1 q).getD 0
    (setResult acc.1 entry.1 (propKey property_uri entity_type)
        ⟨cnt, entity_list.length⟩,
      (entry.1, q) :: acc.2)

/-- `analyze_property`: `none` models the `KeyError` raised by
`entity_type_map[entity_type]` on an unknown entity class; otherwise the
catalog loop runs over the given entity graph, starting from the current
results dict. -/
def analyze_property (property_uri entity_type : String) (oracle : CountOracle)
    (catalog_entities : List (String × CatalogEntities))
    (results : List (String × List (String × PropertyObservation))) :
    Option (List (String × List (String × PropertyObservation)) × List (String × String)) :=
  (entityTypeMap entity_type).map (fun key =>
    catalog_entities.foldl (analyzePropertyStep property_uri entity_type key oracle)
      (results, []))

/-- Python's `s.startswith('http')`, written over the character list so that
it evaluates by kernel reduction. -/
def startsWithHttp (s : String) : Bool :=
  "http".toList.isPrefixOf s.toList

/-- `analyze_vocabulary_control(values)`: the controlled-vocabulary decision
rule.  `values` is the parsed response of the grouped value query, a list of
`(value, count)` rows.  The float tests `top/total > 0.8` and
`len(uri)/len(values) > 0.7` are taken as exact rational comparisons and
written cross-multiplied. -/
def analyze_vocabulary_control (values : List (String × Nat)) : Bool :=
  if values.isEmpty then false
  else
    let total_usage := (values.map Prod.snd).sum
    if values.length ≤ 5 then true
    else
      let top_values_usage := ((values.take 5).map Prod.snd).sum
      if 5 * top_values_usage > 4 * total_usage then true
      else
        let uri_values := values.filter (fun v => startsWithHttp v.1)
        if 10 * uri_values.length > 7 * values.length then true
        else false

/-- The grouped value query text built by `check_property_vocabulary`
(whitespace normalised to single spaces). -/
def vocabValuesQuery (property_uri : String) (entity_list : List String) : String :=
  "PREFIX dcat: <http://www.w3.org/ns/dcat#> SELECT DISTINCT ?value (COUNT(?entity) as ?count) WHERE \x7b VALUES ?entity \x7b " ++
    entity_filter entity_list ++ " \x7d ?entity <" ++ property_uri ++
    "> ?value . \x7d GROUP BY ?value ORDER BY DESC(?count)"

/-- The entity-count query text built by `check_property_vocabulary`
(whitespace normalised to single spaces). -/
def vocabCountQuery (property_uri : String) (entity_list : List String) : String :=
  "PREFIX dcat: <http://www.w3.org/ns/dcat#> SELECT (COUNT(DISTINCT ?entity) as ?total_with_property) WHERE \x7b VALUES ?entity \x7b " ++
    entity_filter entity_list ++ " \x7d ?entity <" ++ property_uri ++
    "> ?value . \x7d"

/-- Per-catalog responses of the endpoint for the grouped value queries:
`none` is a transport failure (after which no observation is stored),
`some rows` the parsed `(value, count)` bindings. -/
abbrev ValuesOracle := String → String → Option (List (String × Nat))

/-- The body of the catalog loop of `check_property_vocabulary`.  A catalog
whose entity list for `entity_type` is empty is skipped outright
(`continue`).  Otherwise both queries are issued; a failed count query
leaves `entities_with_property = 0`, and a failed values query means nothing
is stored for this catalog at all. -/
def checkPropertyVocabularyStep (property_uri entity_type : String)
    (valuesOracle : ValuesOracle) (countOracle : CountOracle)
    (results : List (String × List (String × VocabularyObservation)))
    (entry : String × CatalogEntities) :
    List (String × List (String × VocabularyObservation)) :=
  let entity_list := getEntityList entity_type entry.2
  if entity_list.isEmpty then results
  else
    let total_entities_with_property :=
      (countOracle entry.1 (vocabCountQuery property_uri entity_list)).getD 0
    match valuesOracle entry.1 (vocabValuesQuery property_uri entity_list) with
    | none => results
    | some values =>
      setResult results entry.1 (propKey property_uri entity_type)
        ⟨entity_list.length, total_entities_with_property, values,
          values.length, analyze_vocabulary_control values⟩

/-- `check_property_vocabulary`: the catalog loop of the vocabulary checker.
Note that here `entity_type` is directly the entity-set key
(`"datasets"`, `"catalogs"`, `"distributions"`, `"records"`). -/
def check_property_vocabulary (property_uri entity_type : String)
    (valuesOracle : ValuesOracle) (countOracle : CountOracle)
    (catalog_entities : List (String × CatalogEntities))
    (results : List (String × List (String × VocabularyObservation))) :
    List (String × List (String × VocabularyObservation)) :=
  catalog_entities.foldl
    (checkPropertyVocabularyStep property_uri entity_type valuesOracle countOracle)
    results

/-- One entry of the `_load_mobility_spec` table: the three tier lists of one
entity class, `recommended` being absent for `dcat:CatalogRecord`. -/
structure PropertyTierLists where
  mandatory : List String
  recommended : Option (List String)
  optional : List String
deriving Repr, DecidableEq

/-- `_load_mobility_spec()`: the injected mobilityDCAT-AP property table,
transcribed verbatim (the commented-out `applicableLegislation` line of the
Distribution optional list is omitted, as in the source). -/
def mobility_spec : List (String × PropertyTierLists) :=
  [("dcat:Catalog",
    { mandatory :=
        ["http://purl.org/dc/terms/description",
         "http://purl.org/dc/terms/spatial",
         "http://xmlns.com/foaf/0.1/homepage",
         "http://purl.org/dc/terms/publisher",
         "http://www.w3.org/ns/dcat#record",
         "http://purl.org/dc/terms/title"],
      recommended := some
        ["http://purl.org/dc/terms/language",
         "http://purl.org/dc/terms/license",
         "http://purl.org/dc/terms/modified",
         "http://purl.org/dc/terms/issued",
         "http://www.w3.org/ns/dcat#themeTaxonomy"],
      optional :=
        ["http://www.w3.org/ns/dcat#dataset",
         "http://purl.org/dc/terms/hasPart",
         "http://purl.org/dc/terms/identifier",
         "http://www.w3.org/ns/adms#identifier"] }),
   ("dcat:Dataset",
    { mandatory :=
        ["http://www.w3.org/ns/dcat#distribution",
         "http://purl.org/dc/terms/description",
         "http://purl.org/dc/terms/accrualPeriodicity",
         "http://purl.org/dc/terms/spatial",
         "https://w3id.org/mobilitydcat-ap#mobilityTheme",
         "http://purl.org/dc/terms/publisher",
         "http://purl.org/dc/terms/title"],
      recommended := some
        ["https://w3id.org/mobilitydcat-ap#georeferencingMethod",
         "http://www.w3.org/ns/dcat#contactPoint",
         "http://www.w3.org/ns/dcat#keyword",
         "https://w3id.org/mobilitydcat-ap#networkCoverage",
         "http://purl.org/dc/terms/conformsTo",
         "http://purl.org/dc/terms/rightsHolder",
         "http://purl.org/dc/terms/temporal",
         "http://www.w3.org/ns/dcat#theme",
         "https://w3id.org/mobilitydcat-ap#transportMode"],
      optional :=
        ["http://data.europa.eu/r5r/#applicableLegislation",
         "https://w3id.org/mobilitydcat-ap#assessmentResult",
         "http://purl.org/dc/terms/hasVersion",
         "http://purl.org/dc/terms/identifier",
         "https://w3id.org/mobilitydcat-ap#intendedInformationService",
         "http://purl.org/dc/terms/isReferencedBy",
         "http://purl.org/dc/terms/isVersionOf",
         "http://purl.org/dc/terms/language",
         "http://www.w3.org/ns/adms#identifier",
         "http://purl.org/dc/terms/relation",
         "http://purl.org/dc/terms/issued",
         "http://purl.org/dc/terms/modified",
         "http://www.w3.org/2002/07/owl#versionInfo",
         "http://www.w3.org/ns/adms#versionNotes",
         "http://www.w3.org/ns/dqv#hasQualityAnnotation"] }),
   ("dcat:Distribution",
    { mandatory :=
        ["http://www.w3.org/ns/dcat#accessURL",
         "https://w3id.org/mobilitydcat-ap#mobilityDataStandard",
         "http://purl.org/dc/terms/format",
         "http://purl.org/dc/terms/rights"],
      recommended := some
        ["https://w3id.org/mobilitydcat-ap#applicationLayerProtocol",
         "http://purl.org/dc/terms/description",
         "http://purl.org/dc/terms/license"],
      optional :=
        ["http://www.w3.org/ns/dcat#accessService",
         "http://www.w3.org/2011/content#characterEncoding",
         "https://w3id.org/mobilitydcat-ap#communicationMethod",
         "https://w3id.org/mobilitydcat-ap#dataFormatNotes",
         "http://www.w3.org/ns/dcat#downloadURL",
         "https://w3id.org/mobilitydcat-ap#grammar",
         "http://www.w3.org/ns/adms#sample",
         "http://purl.org/dc/terms/temporal"] }),
   ("dcat:CatalogRecord",
    { mandatory :=
        ["http://purl.org/dc/terms/created",
         "http://purl.org/dc/terms/language",
         "http://purl.org/dc/terms/modified",
         "http://xmlns.com/foaf/0.1/primaryTopic"],
      recommended := none,
      optional :=
        ["http://purl.org/dc/terms/publisher",
         "http://purl.org/dc/terms/source"] })]

/-- The order in which `analyze_all_properties` walks one class's property
lists: mandatory, then recommended when present, then optional. -/
def classProps (t : PropertyTierLists) : List String :=
  t.mandatory ++ t.recommended.getD [] ++ t.optional

/-- `analyze_all_properties` minus the discovery and reporting steps: run
`analyze_property` for every property of every class over a fixed entity
graph, threading the results dict.  `none` would signal the `KeyError` of an
unknown class and never occurs for the four spec classes. -/
def runAllProps (oracle : CountOracle)
    (catalog_entities : List (String × CatalogEntities))
    (results : List (String × List (String × PropertyObservation))) :
    Option (List (String × List (String × PropertyObservation))) :=
  mobility_spec.foldlM
    (fun r ct =>
      (classProps ct.2).foldlM
        (fun r' p => (analyze_property p ct.1 oracle catalog_entities r').map Prod.fst)
        r)
    results

/-- `analyze_all_properties`: resolve the entity graph; when it is empty
print "No catalogs found in the endpoint" (the `Bool` component) and return
with no analysis performed; otherwise analyze every specified property.  The
results dict starts out empty. -/
def analyze_all_properties (containerOracle : Option (List String))
    (datasetOracle : String → Option (List (String × Option String)))
    (recordOracle : String → Option (List String)) (oracle : CountOracle) :
    Option (List (String × List (String × PropertyObservation)) × Bool) :=
  let catalog_entities := get_catalog_entities containerOracle datasetOracle recordOracle
  if catalog_entities.isEmpty then some ([], true)
  else (runAllProps oracle catalog_entities []).map (fun r => (r, false))

/-- The `properties_to_check` configuration of the vocabulary checker's
`main`. -/
def properties_to_check : List (String × List String) :=
  [("datasets",
    ["https://w3id.org/mobilitydcat-ap#mobilityTheme",
     "http://www.w3.org/ns/dcat#theme",
     "http://purl.org/dc/terms/accrualPeriodicity",
     "http://purl.org/dc/terms/conformsTo",
     "http://purl.org/dc/terms/language",
     "http://purl.org/dc/terms/publisher",
     "http://purl.org/dc/terms/spatial",
     "https://w3id.org/mobilitydcat-ap#georeferencingMethod",
     "https://w3id.org/mobilitydcat-ap#networkCoverage",
     "https://w3id.org/mobilitydcat-ap#transportMode",
     "https://w3id.org/mobilitydcat-ap#intendedInformationService"]),
   ("catalogs",
    ["http://www.w3.org/ns/dcat#themeTaxonomy",
     "http://purl.org/dc/terms/language",
     "http://purl.org/dc/terms/publisher",
     "http://purl.org/dc/terms/spatial"]),
   ("distributions",
    ["http://purl.org/dc/terms/format",
     "http://purl.org/dc/terms/language",
     "http://purl.org/dc/terms/publisher",
     "https://w3id.org/mobilitydcat-ap#mobilityDataStandard",
     "https://w3id.org/mobilitydcat-ap#grammar",
     "https://w3id.org/mobilitydcat-ap#applicationLayerProtocol",
     "https://w3id.org/mobilitydcat-ap#communicationMethod"])]

/-- Every aggregator key `analyze_all_properties` ever writes for one
catalog, in writing order. -/
def specKeys : List String :=
  mobility_spec.flatMap (fun ct => (classProps ct.2).map (fun p => propKey p ct.1))

/-- Every aggregator key the vocabulary checker's `main` ever writes for one
catalog, in writing order. -/
def vocabConfigKeys : List String :=
  properties_to_check.flatMap (fun tp => tp.2.map (fun p => propKey p tp.1))

/-- The results dict of the property analyzer. -/
abbrev ComplianceResults := List (String × List (String × PropertyObservation))

/-- The results dict of the vocabulary checker. -/
abbrev VocabResults := List (String × List (String × VocabularyObservation))

/-- The §3 data-model invariant over every stored compliance observation:
`entitiesWithProperty ≤ totalEntities`. -/
def complianceInvariant (r : ComplianceResults) : Prop :=
  ∀ row, row ∈ r → ∀ cell, cell ∈ row.2 →
    cell.2.entities_with_property ≤ cell.2.total_entities

/-- The same invariant over every stored vocabulary observation. -/
def vocabularyInvariant (r : VocabResults) : Prop :=
  ∀ row, row ∈ r → ∀ cell, cell ∈ row.2 →
    cell.2.entities_with_property ≤ cell.2.total_entities

/- ### Association-list lemmas -/

theorem alSet_nil {α : Type} (key : String) (v : α) :
    alSet [] key v = [(key, v)] := rfl

theorem alSet_cons {α : Type} (a : String) (b : α) (rest : List (String × α))
    (key : String) (v : α) :
    alSet ((a, b) :: rest) key v =
      if a = key then (a, v) :: rest else (a, b) :: alSet rest key v := rfl

theorem alGet_cons {α : Type} (a : String) (b : α) (rest : List (String × α))
    (key : String) :
    alGet ((a, b) :: rest) key = if a = key then some b else alGet rest key := rfl

theorem alGet_alSet_same {α : Type} (m : List (String × α)) (k : String) (v : α) :
    alGet (alSet m k v) k = some v := by
  induction m with
  | nil => simp [alSet, alGet]
  | cons p rest ih =>
    obtain ⟨a, b⟩ := p
    by_cases h : a = k
    · simp [alSet, alGet, h]
    · simp [alSet, alGet, h, ih]

theorem alGet_alSet_ne {α : Type} (m : List (String × α)) (k k' : String) (v : α)
    (h : k' ≠ k) : alGet (alSet m k v) k' = alGet m k' := by
  induction m with
  | nil => simp [alSet, alGet, Ne.symm h]
  | cons p rest ih =>
    obtain ⟨a, b⟩ := p
    by_cases ha : a = k
    · subst ha
      simp [alSet, alGet, Ne.symm h]
    · simp [alSet, alGet, ha, ih]

theorem alSet_mem {α : Type} {m : List (String × α)} {k : String} {v : α}
    {x : String × α} (hx : x ∈ alSet m k v) : x = (k, v) ∨ x ∈ m := by
  induction m with
  | nil =>
    rw [alSet_nil, List.mem_singleton] at hx
    exact Or.inl hx
  | cons p rest ih =>
    obtain ⟨a, b⟩ := p
    rw [alSet_cons] at hx
    by_cases ha : a = k
    · rw [if_pos ha] at hx
      rcases List.mem_cons.mp hx with h1 | h1
      · exact Or.inl (by rw [h1, ha])
      · exact Or.inr (List.mem_cons_of_mem _ h1)
    · rw [if_neg ha] at hx
      rcases List.mem_cons.mp hx with h1 | h1
      · exact Or.inr (List.mem_cons.mpr (Or.inl h1))
      · rcases ih h1 with h2 | h2
        · exact Or.inl h2
        · exact Or.inr (List.mem_cons_of_mem _ h2)

theorem alGet_mem {α : Type} {m : List (String × α)} {k : String} {v : α}
    (h : alGet m k = some v) : (k, v) ∈ m := by
  induction m with
  | nil => exact absurd h (by simp [alGet])
  | cons p rest ih =>
    obtain ⟨a, b⟩ := p
    rw [alGet_cons] at h
    by_cases ha : a = k
    · rw [if_pos ha, Option.some.injEq] at h
      subst ha
      subst h
      exact List.mem_cons_self _ _
    · rw [if_neg ha] at h
      exact List.mem_cons_of_mem _ (ih h)

theorem getResult_setResult_same {α : Type}
    (r : List (String × List (String × α))) (c key : String) (v : α) :
    getResult (setResult r c key v) c key = some v := by
  unfold getResult setResult
  rw [alGet_alSet_same]
  simp [alGet_alSet_same]

theorem alGet_setResult_same {α : Type}
    (r : List (String × List (String × α))) (c key : String) (v : α) :
    alGet (setResult r c key v) c = some (alSet ((alGet r c).getD []) key v) :=
  alGet_alSet_same _ _ _

theorem alGet_setResult_ne {α : Type}
    (r : List (String × List (String × α))) (c key : String) (v : α)
    (c' : String) (h : c' ≠ c) :
    alGet (setResult r c key v) c' = alGet r c' :=
  alGet_alSet_ne _ _ _ _ h

theorem getResult_congr_row {α : Type}
    {r1 r2 : List (String × List (String × α))} {c : String}
    (h : alGet r1 c = alGet r2 c) (key : String) :
    getResult r1 c key = getResult r2 c key := by
  unfold getResult
  rw [h]

theorem nodup_keys_mem_eq {α : Type} {l : List (String × α)}
    (h : (l.map Prod.fst).Nodup) {c : String} {x y : α}
    (hx : (c, x) ∈ l) (hy : (c, y) ∈ l) : x = y := by
  induction l with
  | nil => simp at hx
  | cons p rest ih =>
    simp only [List.map_cons, List.nodup_cons] at h
    rcases List.mem_cons.mp hx with hx1 | hx2 <;>
      rcases List.mem_cons.mp hy with hy1 | hy2
    · exact congrArg Prod.snd (hx1.trans hy1.symm)
    · have hc : p.1 = c := by rw [← hx1]
      have hmem : c ∈ rest.map Prod.fst := List.mem_map_of_mem Prod.fst hy2
      exact absurd hmem (hc ▸ h.1)
    · have hc : p.1 = c := by rw [← hy1]
      have hmem : c ∈ rest.map Prod.fst := List.mem_map_of_mem Prod.fst hx2
      exact absurd hmem (hc ▸ h.1)
    · exact ih h.2 hx2 hy2

/- ### Lemmas on the catalog loop of `analyze_property` -/

theorem apFold_row_preserve (p et k : String) (o : CountOracle) (c : String) :
    ∀ (l : List (String × CatalogEntities))
      (acc : ComplianceResults × List (String × String)),
      c ∉ l.map Prod.fst →
      alGet (l.foldl (analyzePropertyStep p et k o) acc).1 c = alGet acc.1 c := by
  intro l
  induction l with
  | nil => intro acc _; rfl
  | cons e rest ih =>
    intro acc h
    simp only [List.map_cons, List.mem_cons, not_or] at h
    rw [List.foldl_cons, ih _ h.2]
    have hs : ∀ (r : ComplianceResults) (key : String) (v : PropertyObservation),
        alGet (setResult r e.1 key v) c = alGet r c :=
      fun r key v => alGet_setResult_ne r e.1 key v c h.1
    unfold analyzePropertyStep
    by_cases he : (getEntityList k e.2).isEmpty = true
    · rw [if_pos he]
      exact hs _ _ _
    · rw [if_neg he]
      exact hs _ _ _

theorem apFold_cell (p et k : String) (o : CountOracle)
    (s t : List (String × CatalogEntities)) (c : String) (ents : CatalogEntities)
    (hct : c ∉ t.map Prod.fst)
    (acc : ComplianceResults × List (String × String)) :
    getResult ((s ++ (c, ents) :: t).foldl (analyzePropertyStep p et k o) acc).1
        c (propKey p et) =
      some (if (getEntityList k ents).isEmpty then ⟨0, 0⟩
        else ⟨(o c (complianceQuery p (getEntityList k ents))).getD 0,
              (getEntityList k ents).length⟩) := by
  rw [List.foldl_append, List.foldl_cons]
  rw [getResult_congr_row (apFold_row_preserve p et k o c t _ hct) (propKey p et)]
  by_cases he : (getEntityList k ents).isEmpty = true
  · rw [if_pos he]
    show getResult (analyzePropertyStep p et k o _ (c, ents)).1 c (propKey p et) =
      some ⟨0, 0⟩
    unfold analyzePropertyStep
    rw [if_pos he]
    exact getResult_setResult_same _ _ _ _
  · rw [if_neg he]
    show getResult (analyzePropertyStep p et k o _ (c, ents)).1 c (propKey p et) = _
    unfold analyzePropertyStep
    rw [if_neg he]
    exact getResult_setResult_same _ _ _ _

theorem apFold_queries (p et k : String) (o : CountOracle) :
    ∀ (l : List (String × CatalogEntities))
      (acc : ComplianceResults × List (String × String)) (q : String × String),
      q ∈ (l.foldl (analyzePropertyStep p et k o) acc).2 →
      q ∈ acc.2 ∨ ∃ e, e ∈ l ∧ q.1 = e.1 ∧ (getEntityList k e.2).isEmpty = false := by
  intro l
  induction l with
  | nil => intro acc q h; exact Or.inl h
  | cons e rest ih =>
    intro acc q h
    rw [List.foldl_cons] at h
    rcases ih _ q h with h1 | ⟨e', he', hq⟩
    · unfold analyzePropertyStep at h1
      by_cases he : (getEntityList k e.2).isEmpty = true
      · rw [if_pos he] at h1
        exact Or.inl h1
      · rw [if_neg he] at h1
        rcases List.mem_cons.mp h1 with h2 | h2
        · exact Or.inr ⟨e, List.mem_cons_self _ _,
            by rw [h2], Bool.not_eq_true _ ▸ he⟩
        · exact Or.inl h2
    · exact Or.inr ⟨e', List.mem_cons_of_mem _ he', hq⟩

theorem apFold_agree (p et k : String) (o o' : CountOracle) (c : String)
    (hag : ∀ c' q, c' ≠ c → o' c' q = o c' q) :
    ∀ (l : List (String × CatalogEntities))
      (acc acc' : ComplianceResults × List (String × String)),
      (∀ c', c' ≠ c → alGet acc.1 c' = alGet acc'.1 c') →
      ∀ c', c' ≠ c →
        alGet (l.foldl (analyzePropertyStep p et k o) acc).1 c' =
          alGet (l.foldl (analyzePropertyStep p et k o') acc').1 c' := by
  intro l
  induction l with
  | nil => intro acc acc' hinv c' hc'; exact hinv c' hc'
  | cons e rest ih =>
    intro acc acc' hinv c' hc'
    rw [List.foldl_cons, List.foldl_cons]
    refine ih _ _ ?_ c' hc'
    intro c'' hc''
    simp only [analyzePropertyStep]
    by_cases he : (getEntityList k e.2).isEmpty = true
    · rw [if_pos he, if_pos he]
      by_cases hce : c'' = e.1
      · rw [hce, alGet_setResult_same, alGet_setResult_same,
          hinv e.1 (hce ▸ hc'')]
      · rw [alGet_setResult_ne _ _ _ _ _ hce, alGet_setResult_ne _ _ _ _ _ hce]
        exact hinv c'' hc''
    · rw [if_neg he, if_neg he]
      by_cases hec : e.1 = c
      · by_cases hce : c'' = e.1
        · exact absurd (hce.trans hec) hc''
        · rw [alGet_setResult_ne _ _ _ _ _ hce, alGet_setResult_ne _ _ _ _ _ hce]
          exact hinv c'' hc''
      · have hor : o' e.1 (complianceQuery p (getEntityList k e.2)) =
            o e.1 (complianceQuery p (getEntityList k e.2)) := hag e.1 _ hec
        rw [hor]
        by_cases hce : c'' = e.1
        · rw [hce, alGet_setResult_same, alGet_setResult_same, hinv e.1 hec]
        · rw [alGet_setResult_ne _ _ _ _ _ hce, alGet_setResult_ne _ _ _ _ _ hce]
          exact hinv c'' hc''

/- ### Lemmas on the entity-graph resolver -/

theorem insertIfAbsent_nodup {l : List String} {x : String} (h : l.Nodup) :
    (insertIfAbsent l x).Nodup := by
  unfold insertIfAbsent
  by_cases hx : x ∈ l
  · rw [if_pos hx]
    exact h
  · rw [if_neg hx]
    simp [List.nodup_append, h, hx]

theorem foldl_insertIfAbsent_nodup :
    ∀ (xs l : List String), l.Nodup → (xs.foldl insertIfAbsent l).Nodup := by
  intro xs
  induction xs with
  | nil => intro l h; exact h
  | cons x rest ih =>
    intro l h
    rw [List.foldl_cons]
    exact ih _ (insertIfAbsent_nodup h)

theorem datasetRowStep_invariant {e : CatalogEntities} {row : String × Option String}
    (hd : e.datasets.Nodup) (hx : e.distributions.Nodup) :
    (datasetRowStep e row).datasets.Nodup ∧
      (datasetRowStep e row).distributions.Nodup ∧
      (datasetRowStep e row).records = e.records := by
  unfold datasetRowStep
  cases row.2 with
  | none => exact ⟨insertIfAbsent_nodup hd, hx, rfl⟩
  | some d => exact ⟨insertIfAbsent_nodup hd, insertIfAbsent_nodup hx, rfl⟩

theorem foldl_datasetRowStep_invariant :
    ∀ (rows : List (String × Option String)) (e : CatalogEntities),
      e.datasets.Nodup → e.distributions.Nodup →
      (rows.foldl datasetRowStep e).datasets.Nodup ∧
        (rows.foldl datasetRowStep e).distributions.Nodup ∧
        (rows.foldl datasetRowStep e).records = e.records := by
  intro rows
  induction rows with
  | nil => intro e hd hx; exact ⟨hd, hx, rfl⟩
  | cons row rest ih =>
    intro e hd hx
    rw [List.foldl_cons]
    obtain ⟨h1, h2, h3⟩ := datasetRowStep_invariant hd hx
    obtain ⟨g1, g2, g3⟩ := ih _ h1 h2
    exact ⟨g1, g2, g3.trans h3⟩

theorem resolveCatalog_nodup
    (dso : String → Option (List (String × Option String)))
    (reco : String → Option (List String)) (cat : String) :
    (resolveCatalog dso reco cat).datasets.Nodup ∧
      (resolveCatalog dso reco cat).distributions.Nodup ∧
      (resolveCatalog dso reco cat).records.Nodup := by
  unfold resolveCatalog
  cases hds : dso cat with
  | none =>
    cases hrec : reco cat with
    | none => exact ⟨List.nodup_nil, List.nodup_nil, List.nodup_nil⟩
    | some recs =>
      exact ⟨List.nodup_nil, List.nodup_nil,
        foldl_insertIfAbsent_nodup recs [] List.nodup_nil⟩
  | some rows =>
    obtain ⟨h1, h2, h3⟩ :=
      foldl_datasetRowStep_invariant rows ⟨[cat], [], [], []⟩
        List.nodup_nil List.nodup_nil
    cases hrec : reco cat with
    | none => exact ⟨h1, h2, h3 ▸ List.nodup_nil⟩
    | some recs =>
      exact ⟨h1, h2, foldl_insertIfAbsent_nodup recs _ (h3 ▸ List.nodup_nil)⟩

theorem alSet_foldl_mem {α : Type} (f : String → α) :
    ∀ (xs : List String) (acc : List (String × α)) (pr : String × α),
      pr ∈ xs.foldl (fun a x => alSet a x (f x)) acc →
      pr ∈ acc ∨ ∃ x, x ∈ xs ∧ pr = (x, f x) := by
  intro xs
  induction xs with
  | nil => intro acc pr h; exact Or.inl h
  | cons x rest ih =>
    intro acc pr h
    rw [List.foldl_cons] at h
    rcases ih _ pr h with h1 | ⟨x', hx', hpr⟩
    · rcases alSet_mem h1 with h2 | h2
      · exact Or.inr ⟨x, List.mem_cons_self _ _, h2⟩
      · exact Or.inl h2
    · exact Or.inr ⟨x', List.mem_cons_of_mem _ hx', hpr⟩

theorem get_catalog_entities_mem {co : Option (List String)}
    {dso : String → Option (List (String × Option String))}
    {reco : String → Option (List String)} {c : String} {ents : CatalogEntities}
    (h : (c, ents) ∈ get_catalog_entities co dso reco) :
    ∃ cat, ents = resolveCatalog dso reco cat := by
  cases co with
  | none => simp [get_catalog_entities] at h
  | some catalogs =>
    simp only [get_catalog_entities] at h
    rcases alSet_foldl_mem (resolveCatalog dso reco) catalogs [] _ h with h1 | ⟨x, _, hpr⟩
    · simp at h1
    · exact ⟨x, congrArg Prod.snd hpr⟩

/- ### Lemmas on the catalog loop of `check_property_vocabulary` -/

theorem vcFold_row_preserve (p et : String) (vo : ValuesOracle) (co : CountOracle)
    (c : String) :
    ∀ (l : List (String × CatalogEntities)) (acc : VocabResults),
      (∀ e, e ∈ l → e.1 = c → getEntityList et e.2 = []) →
      alGet (l.foldl (checkPropertyVocabularyStep p et vo co) acc) c = alGet acc c := by
  intro l
  induction l with
  | nil => intro acc _; rfl
  | cons e rest ih =>
    intro acc h
    rw [List.foldl_cons, ih _ (fun e' he' => h e' (List.mem_cons_of_mem _ he'))]
    simp only [checkPropertyVocabularyStep]
    by_cases he : (getEntityList et e.2).isEmpty = true
    · rw [if_pos he]
    · rw [if_neg he]
      have hec : e.1 ≠ c := by
        intro hh
        rw [h e (List.mem_cons_self _ _) hh] at he
        exact he rfl
      cases vo e.1 (vocabValuesQuery p (getEntityList et e.2)) with
      | none => rfl
      | some values => exact alGet_setResult_ne _ _ _ _ _ (Ne.symm hec)

/- ### Invariant preservation -/

theorem setResult_forall {α : Type} (P : String × α → Prop)
    {r : List (String × List (String × α))}
    (hr : ∀ row, row ∈ r → ∀ cell, cell ∈ row.2 → P cell)
    {c key : String} {v : α} (hv : P (key, v)) :
    ∀ row, row ∈ setResult r c key v → ∀ cell, cell ∈ row.2 → P cell := by
  intro row hrow cell hcell
  rcases alSet_mem hrow with h1 | h1
  · rw [h1] at hcell
    replace hcell : cell ∈ alSet ((alGet r c).getD []) key v := hcell
    rcases alSet_mem hcell with h2 | h2
    · rw [h2]
      exact hv
    · cases hg : alGet r c with
      | none =>
        rw [hg] at h2
        simp at h2
      | some row0 =>
        rw [hg] at h2
        exact hr (c, row0) (alGet_mem hg) cell h2
  · exact hr row h1 cell hcell

theorem apFold_invariant (p et k : String) (o : CountOracle)
    (hsound : ∀ c lst n, o c (complianceQuery p lst) = some n → n ≤ lst.length) :
    ∀ (l : List (String × CatalogEntities))
      (acc : ComplianceResults × List (String × String)),
      (∀ row, row ∈ acc.1 → ∀ cell, cell ∈ row.2 →
        cell.2.entities_with_property ≤ cell.2.total_entities) →
      ∀ row, row ∈ (l.foldl (analyzePropertyStep p et k o) acc).1 →
        ∀ cell, cell ∈ row.2 →
          cell.2.entities_with_property ≤ cell.2.total_entities := by
  intro l
  induction l with
  | nil => intro acc h; exact h
  | cons e rest ih =>
    intro acc h
    rw [List.foldl_cons]
    apply ih
    simp only [analyzePropertyStep]
    by_cases he : (getEntityList k e.2).isEmpty = true
    · rw [if_pos he]
      exact setResult_forall _ h (Nat.le_refl 0)
    · rw [if_neg he]
      refine setResult_forall _ h ?_
      show ((o e.1 (complianceQuery p (getEntityList k e.2))).getD 0) ≤
        (getEntityList k e.2).length
      cases hq : o e.1 (complianceQuery p (getEntityList k e.2)) with
      | none => exact Nat.zero_le _
      | some n => exact hsound e.1 _ n hq

theorem vcFold_invariant (p et : String) (vo : ValuesOracle) (co : CountOracle)
    (hsound : ∀ c lst n, co c (vocabCountQuery p lst) = some n → n ≤ lst.length) :
    ∀ (l : List (String × CatalogEntities)) (acc : VocabResults),
      (∀ row, row ∈ acc → ∀ cell, cell ∈ row.2 →
        cell.2.entities_with_property ≤ cell.2.total_entities) →
      ∀ row, row ∈ l.foldl (checkPropertyVocabularyStep p et vo co) acc →
        ∀ cell, cell ∈ row.2 →
          cell.2.entities_with_property ≤ cell.2.total_entities := by
  intro l
  induction l with
  | nil => intro acc h; exact h
  | cons e rest ih =>
    intro acc h
    rw [List.foldl_cons]
    apply ih
    simp only [checkPropertyVocabularyStep]
    by_cases he : (getEntityList et e.2).isEmpty = true
    · rw [if_pos he]
      exact h
    · rw [if_neg he]
      cases vo e.1 (vocabValuesQuery p (getEntityList et e.2)) with
      | none => exact h
      | some values =>
        refine setResult_forall _ h ?_
        show ((co e.1 (vocabCountQuery p (getEntityList et e.2))).getD 0) ≤
          (getEntityList et e.2).length
        cases hq : co e.1 (vocabCountQuery p (getEntityList et e.2)) with
        | none => exact Nat.zero_le _
        | some n => exact hsound e.1 _ n hq

/- ### Shared consequences of `analyze_property` -/

theorem analyze_property_cell (p et k : String) (o : CountOracle)
    (catalog_entities : List (String × CatalogEntities))
    (results : ComplianceResults) (c : String) (ents : CatalogEntities)
    (hmap : entityTypeMap et = some k)
    (hnd : (catalog_entities.map Prod.fst).Nodup)
    (hmem : (c, ents) ∈ catalog_entities) :
    ∀ out qs, analyze_property p et o catalog_entities results = some (out, qs) →
      getResult out c (propKey p et) =
        some (if (getEntityList k ents).isEmpty then ⟨0, 0⟩
          else ⟨(o c (complianceQuery p (getEntityList k ents))).getD 0,
                (getEntityList k ents).length⟩) := by
  intro out qs heq
  obtain ⟨s, t, rfl⟩ := List.append_of_mem hmem
  have hct : c ∉ t.map Prod.fst := by
    rw [List.map_append, List.map_cons] at hnd
    exact (List.nodup_cons.mp (List.nodup_append.mp hnd).2.1).1
  unfold analyze_property at heq
  rw [hmap, Option.map_some'] at heq
  have hfold := Option.some.inj heq
  have hout : out = ((s ++ (c, ents) :: t).foldl
      (analyzePropertyStep p et k o) (results, [])).1 := by
    rw [hfold]
  rw [hout]
  exact apFold_cell p et k o s t c ents hct (results, [])

/-- C2: with at most five distinct values the classification is `controlled`
exactly when at least one distinct value was observed; the usage counts play
no role. -/
theorem claim2_small_value_sets_controlled (values : List (String × Nat))
    (hnd : (values.map Prod.fst).Nodup) (hlen : values.length ≤ 5) :
    analyze_vocabulary_control values = true ↔ values ≠ [] := by
  cases values with
  | nil => simp [analyze_vocabulary_control]
  | cons v vs =>
    have hne : ((v :: vs) : List (String × Nat)) ≠ [] := by simp
    simp only [analyze_vocabulary_control, List.isEmpty_cons, Bool.false_eq_true,
      if_false, if_pos hlen]
    exact ⟨fun _ => hne, fun _ => trivial⟩

/-- Witness for C2: one observed value is classified as controlled, an empty
observation list is not. -/
theorem claim2_small_value_sets_controlled_witness :
    (analyze_vocabulary_control [("member", 3)] = true ↔
        ([("member", 3)] : List (String × Nat)) ≠ []) ∧
      (analyze_vocabulary_control [] = true ↔ ([] : List (String × Nat)) ≠ []) :=
  ⟨claim2_small_value_sets_controlled [("member", 3)] (by decide) (by decide),
    claim2_small_value_sets_controlled [] (by decide) (by decide)⟩

/-- C3: with more than five distinct values, sorted by descending usage, a
top-five share strictly above 80% of total usage yields `controlled`, before
the URI-shape test is ever consulted. -/
theorem claim3_top_five_dominance_controlled (values : List (String × Nat))
    (hnd : (values.map Prod.fst).Nodup)
    (hsorted : (values.map Prod.snd).Sorted (· ≥ ·))
    (hlen : 5 < values.length)
    (htop : 5 * ((values.take 5).map Prod.snd).sum > 4 * (values.map Prod.snd).sum) :
    analyze_vocabulary_control values = true := by
  cases values with
  | nil => simp at hlen
  | cons v vs =>
    have h5 : ¬ (v :: vs).length ≤ 5 := by omega
    simp only [analyze_vocabulary_control, List.isEmpty_cons, Bool.false_eq_true,
      if_false, if_neg h5, if_pos htop]

/-- Witness for C3: six values whose top five carry 50 of 51 usages. -/
theorem claim3_top_five_dominance_controlled_witness :
    analyze_vocabulary_control
      [("a", 10), ("b", 10), ("c", 10), ("d", 10), ("e", 10), ("f", 1)] = true :=
  claim3_top_five_dominance_controlled
    [("a", 10), ("b", 10), ("c", 10), ("d", 10), ("e", 10), ("f", 1)]
    (by decide) (by decide) (by decide) (by decide)

/-- C4: with more than five distinct values and a top-five share of at most
80%, the classification is `controlled` exactly when strictly more than 70%
of the distinct values begin with the URI prefix `http`. -/
theorem claim4_uri_share_decides (values : List (String × Nat))
    (hnd : (values.map Prod.fst).Nodup)
    (hsorted : (values.map Prod.snd).Sorted (· ≥ ·))
    (hlen : 5 < values.length)
    (htop : 5 * ((values.take 5).map Prod.snd).sum ≤ 4 * (values.map Prod.snd).sum) :
    analyze_vocabulary_control values = true ↔
      10 * (values.filter (fun v => startsWithHttp v.1)).length >
        7 * values.length := by
  cases values with
  | nil => simp at hlen
  | cons v vs =>
    have h5 : ¬ (v :: vs).length ≤ 5 := by omega
    have htop' : ¬ 5 * (((v :: vs).take 5).map Prod.snd).sum >
        4 * ((v :: vs).map Prod.snd).sum := by omega
    simp only [analyze_vocabulary_control, List.isEmpty_cons, Bool.false_eq_true,
      if_false, if_neg h5, if_neg htop']
    split
    · next h => exact ⟨fun _ => h, fun _ => rfl⟩
    · next h => simp only [Bool.false_eq_true, false_iff]; exact h

/-- Witness for C4: ten equally-used values, eight of them URI-shaped, land
in the URI-share branch and are classified as controlled. -/
theorem claim4_uri_share_decides_witness :
    analyze_vocabulary_control
      [("http://u1", 1), ("http://u2", 1), ("http://u3", 1), ("http://u4", 1),
        ("http://u5", 1), ("http://u6", 1), ("http://u7", 1), ("http://u8", 1),
        ("plain a", 1), ("plain b", 1)] = true :=
  (claim4_uri_share_decides
    [("http://u1", 1), ("http://u2", 1), ("http://u3", 1), ("http://u4", 1),
      ("http://u5", 1), ("http://u6", 1), ("http://u7", 1), ("http://u8", 1),
      ("plain a", 1), ("plain b", 1)]
    (by decide) (by decide) (by decide) (by decide)).mpr (by decide)

/-- C1: a container whose relevant entity set for the given class is empty
gets exactly the `{entitiesWithProperty: 0, totalEntities: 0}` sentinel
stored under its `(property, class)` key, and none of the issued counting
queries belongs to that container. -/
theorem claim1_empty_set_sentinel (p et k : String) (o : CountOracle)
    (catalog_entities : List (String × CatalogEntities))
    (results : ComplianceResults) (c : String) (ents : CatalogEntities)
    (hmap : entityTypeMap et = some k)
    (hnd : (catalog_entities.map Prod.fst).Nodup)
    (hmem : (c, ents) ∈ catalog_entities)
    (hempty : getEntityList k ents = []) :
    (analyze_property p et o catalog_entities results).isSome = true ∧
      ∀ out qs, analyze_property p et o catalog_entities results = some (out, qs) →
        getResult out c (propKey p et) = some ⟨0, 0⟩ ∧ ∀ q, q ∈ qs → q.1 ≠ c := by
  constructor
  · unfold analyze_property
    rw [hmap]
    rfl
  · intro out qs heq
    constructor
    · have hcell := analyze_property_cell p et k o catalog_entities results c ents
        hmap hnd hmem out qs heq
      rw [hempty] at hcell
      simpa using hcell
    · intro q hq hqc
      have heq2 := heq
      unfold analyze_property at heq2
      rw [hmap, Option.map_some'] at heq2
      have hfold := Option.some.inj heq2
      have hqs : qs = (catalog_entities.foldl
          (analyzePropertyStep p et k o) (results, [])).2 := by
        rw [hfold]
      rw [hqs] at hq
      rcases apFold_queries p et k o catalog_entities (results, []) q hq with
        h1 | ⟨e, he, hq1, hq2⟩
      · simp at h1
      · have he1c : e.1 = c := hq1.symm.trans hqc
        have hee : e = (c, e.2) := by rw [← he1c]
        rw [hee] at he
        rw [nodup_keys_mem_eq hnd he hmem, hempty] at hq2
        simp at hq2

/-- Witness for C1: one container with an empty dataset set receives the
`{0, 0}` sentinel and the run issues no query at all. -/
theorem claim1_empty_set_sentinel_witness :
    getResult [("c1", [(propKey "pp" "dcat:Dataset", (⟨0, 0⟩ : PropertyObservation))])]
        "c1" (propKey "pp" "dcat:Dataset") = some ⟨0, 0⟩ :=
  ((claim1_empty_set_sentinel "pp" "dcat:Dataset" "datasets" (fun _ _ => none)
      [("c1", ⟨["c1"], [], [], []⟩)] [] "c1" ⟨["c1"], [], [], []⟩
      rfl (by decide) (List.mem_singleton.mpr rfl) rfl).2
    [("c1", [(propKey "pp" "dcat:Dataset", ⟨0, 0⟩)])] [] rfl).1

/-- C5 as stated is false: the aggregator write is a plain dict assignment;
at an already-populated key it returns normally and silently replaces the
stored observation — no rejection and no error. -/
theorem claim5_counterexample :
    getResult [("c1", [("key1", (⟨1, 2⟩ : PropertyObservation))])] "c1" "key1" =
        some ⟨1, 2⟩ ∧
      setResult [("c1", [("key1", (⟨1, 2⟩ : PropertyObservation))])] "c1" "key1"
          (⟨0, 0⟩ : PropertyObservation) =
        [("c1", [("key1", ⟨0, 0⟩)])] :=
  ⟨rfl, rfl⟩

/-- C5 amended: the aggregator write silently overwrites an already-populated
key (it is a total map update whose new value always lands); no run of either
script ever writes the same (property, class) key twice for a catalog,
because both key sequences are duplicate-free. -/
theorem claim5_amended_write_once_in_practice :
    (∀ (r : ComplianceResults) (c k : String) (v : PropertyObservation),
        getResult (setResult r c k v) c k = some v) ∧
      specKeys.Nodup ∧ vocabConfigKeys.Nodup :=
  ⟨fun r c k v => getResult_setResult_same r c k v, by decide, by decide⟩

/-- C6: every resolved entity set of every container is duplicate-free: an
identifier reachable twice (via both relation shapes or via several result
rows) contributes exactly one entry. -/
theorem claim6_resolved_sets_deduplicated (co : Option (List String))
    (dso : String → Option (List (String × Option String)))
    (reco : String → Option (List String)) (c : String) (ents : CatalogEntities)
    (hmem : (c, ents) ∈ get_catalog_entities co dso reco) :
    ents.datasets.Nodup ∧ ents.distributions.Nodup ∧ ents.records.Nodup := by
  obtain ⟨cat, rfl⟩ := get_catalog_entities_mem hmem
  exact resolveCatalog_nodup dso reco cat

/-- Witness for C6: dataset `d1` appearing in two result rows and record `r1`
appearing twice each contribute one entry. -/
theorem claim6_resolved_sets_deduplicated_witness :
    (⟨["c1"], ["d1", "d2"], ["x"], ["r1"]⟩ : CatalogEntities).datasets.Nodup ∧
      (⟨["c1"], ["d1", "d2"], ["x"], ["r1"]⟩ : CatalogEntities).distributions.Nodup ∧
      (⟨["c1"], ["d1", "d2"], ["x"], ["r1"]⟩ : CatalogEntities).records.Nodup :=
  claim6_resolved_sets_deduplicated (some ["c1"])
    (fun _ => some [("d1", some "x"), ("d1", none), ("d2", some "x")])
    (fun _ => some ["r1", "r1"]) "c1" ⟨["c1"], ["d1", "d2"], ["x"], ["r1"]⟩
    (by decide)

/-- C7: when the counting query fails for one container with a non-empty
entity set, that container stores `{0, |entity set|}`, the call returns
normally, and every other container's row is exactly what it would have been
under any oracle that only differs at the failed container. -/
theorem claim7_query_failure_isolated (p et k : String) (o : CountOracle)
    (catalog_entities : List (String × CatalogEntities))
    (results : ComplianceResults) (c : String) (ents : CatalogEntities)
    (hmap : entityTypeMap et = some k)
    (hnd : (catalog_entities.map Prod.fst).Nodup)
    (hmem : (c, ents) ∈ catalog_entities)
    (hne : getEntityList k ents ≠ [])
    (hfail : o c (complianceQuery p (getEntityList k ents)) = none) :
    ∀ out qs, analyze_property p et o catalog_entities results = some (out, qs) →
      getResult out c (propKey p et) = some ⟨0, (getEntityList k ents).length⟩ ∧
        ∀ (o' : CountOracle), (∀ c' q, c' ≠ c → o' c' q = o c' q) →
          ∀ out' qs',
            analyze_property p et o' catalog_entities results = some (out', qs') →
            ∀ c', c' ≠ c → alGet out' c' = alGet out c' := by
  intro out qs heq
  constructor
  · have hcell := analyze_property_cell p et k o catalog_entities results c ents
      hmap hnd hmem out qs heq
    have hie : (getEntityList k ents).isEmpty = false := by
      cases hgl : getEntityList k ents with
      | nil => exact absurd hgl hne
      | cons a l => rfl
    rw [hie, hfail] at hcell
    simpa using hcell
  · intro o' hag out' qs' heq'
    intro c' hc'
    unfold analyze_property at heq heq'
    rw [hmap, Option.map_some'] at heq heq'
    have h1 := Option.some.inj heq
    have h2 := Option.some.inj heq'
    have hout : out = (catalog_entities.foldl
        (analyzePropertyStep p et k o) (results, [])).1 := by rw [h1]
    have hout' : out' = (catalog_entities.foldl
        (analyzePropertyStep p et k o') (results, [])).1 := by rw [h2]
    rw [hout, hout']
    exact (apFold_agree p et k o o' c hag catalog_entities
      (results, []) (results, []) (fun _ _ => rfl) c' hc').symm

/-- Witness for C7: the query of container `c1` fails while `c2`'s succeeds;
`c1` stores `0/1` and the run returns normally. -/
theorem claim7_query_failure_isolated_witness :
    getResult
        [("c1", [(propKey "pp" "dcat:Dataset", (⟨0, 1⟩ : PropertyObservation))]),
         ("c2", [(propKey "pp" "dcat:Dataset", (⟨1, 1⟩ : PropertyObservation))])]
      "c1" (propKey "pp" "dcat:Dataset") = some ⟨0, 1⟩ :=
  ((claim7_query_failure_isolated "pp" "dcat:Dataset" "datasets"
      (fun c _ => if c = "c1" then none else some 1)
      [("c1", ⟨["c1"], ["d1"], [], []⟩), ("c2", ⟨["c2"], ["d2"], [], []⟩)] []
      "c1" ⟨["c1"], ["d1"], [], []⟩ rfl (by decide) (by decide) (by decide) rfl)
    _ _ rfl).1

/-- C8: when container discovery fails the resolver returns the empty graph
and the full run stores nothing, reports "no catalogs found" and returns
cleanly. -/
theorem claim8_discovery_failure_clean
    (dso : String → Option (List (String × Option String)))
    (reco : String → Option (List String)) (o : CountOracle) :
    get_catalog_entities none dso reco = [] ∧
      analyze_all_properties none dso reco o = some ([], true) :=
  ⟨rfl, rfl⟩

/-- C9: provided the endpoint's counting responses are bounded by the size of
the enumerated entity set (the semantics of `COUNT(DISTINCT ?entity)` over a
`VALUES` restriction), every observation ever stored by either analyzer
satisfies `entitiesWithProperty ≤ totalEntities`. -/
theorem claim9_observation_invariant (p et et2 : String)
    (o : CountOracle) (vo : ValuesOracle) (co : CountOracle)
    (catalog_entities : List (String × CatalogEntities))
    (results : ComplianceResults) (vresults : VocabResults)
    (hsound1 : ∀ c lst n, o c (complianceQuery p lst) = some n → n ≤ lst.length)
    (hsound2 : ∀ c lst n, co c (vocabCountQuery p lst) = some n → n ≤ lst.length)
    (hres : complianceInvariant results)
    (hvres : vocabularyInvariant vresults) :
    (∀ out qs, analyze_property p et o catalog_entities results = some (out, qs) →
      complianceInvariant out) ∧
    vocabularyInvariant
      (check_property_vocabulary p et2 vo co catalog_entities vresults) := by
  constructor
  · intro out qs heq
    cases hk : entityTypeMap et with
    | none =>
      unfold analyze_property at heq
      rw [hk] at heq
      simp at heq
    | some kk =>
      unfold analyze_property at heq
      rw [hk, Option.map_some'] at heq
      have h1 := Option.some.inj heq
      have hout : out = (catalog_entities.foldl
          (analyzePropertyStep p et kk o) (results, [])).1 := by rw [h1]
      rw [hout]
      exact apFold_invariant p et kk o hsound1 catalog_entities (results, []) hres
  · exact vcFold_invariant p et2 vo co hsound2 catalog_entities vresults hvres

/-- Witness for C9: a concrete run of both analyzers under an endpoint that
answers every counting query with `0` satisfies the invariant. -/
theorem claim9_observation_invariant_witness :
    complianceInvariant
        [("c1", [(propKey "pp" "dcat:Dataset", (⟨0, 1⟩ : PropertyObservation))])] ∧
      vocabularyInvariant
        (check_property_vocabulary "pp" "datasets" (fun _ _ => some [("v", 1)])
          (fun _ _ => some 0) [("c1", ⟨["c1"], ["d1"], [], []⟩)] []) := by
  have h := claim9_observation_invariant "pp" "dcat:Dataset" "datasets"
    (fun _ _ => some 0) (fun _ _ => some [("v", 1)]) (fun _ _ => some 0)
    [("c1", ⟨["c1"], ["d1"], [], []⟩)] [] []
    (fun c lst n hn => by rw [← Option.some.inj hn]; exact Nat.zero_le _)
    (fun c lst n hn => by rw [← Option.some.inj hn]; exact Nat.zero_le _)
    (fun row hrow => absurd hrow (List.not_mem_nil row))
    (fun row hrow => absurd hrow (List.not_mem_nil row))
  exact ⟨h.1 _ _ rfl, h.2⟩

/-- C10: a container with an empty relevant entity set is skipped entirely by
the vocabulary checker (its results row is untouched), while under the same
circumstances the compliance evaluator stores the `{0, 0}` sentinel. -/
theorem claim10_vocab_skips_empty (p et : String)
    (vo : ValuesOracle) (co : CountOracle)
    (catalog_entities : List (String × CatalogEntities)) (vresults : VocabResults)
    (c : String) (ents : CatalogEntities)
    (hnd : (catalog_entities.map Prod.fst).Nodup)
    (hmem : (c, ents) ∈ catalog_entities)
    (hempty : getEntityList et ents = []) :
    alGet (check_property_vocabulary p et vo co catalog_entities vresults) c =
        alGet vresults c ∧
      ∀ (className : String) (o : CountOracle) (results : ComplianceResults),
        entityTypeMap className = some et →
        ∀ out qs, analyze_property p className o catalog_entities results = some (out, qs) →
          getResult out c (propKey p className) = some ⟨0, 0⟩ := by
  constructor
  · unfold check_property_vocabulary
    apply vcFold_row_preserve
    intro e he hec
    have hee : e = (c, e.2) := by rw [← hec]
    rw [hee] at he
    rw [nodup_keys_mem_eq hnd he hmem]
    exact hempty
  · intro className o results hmap out qs heq
    have hcell := analyze_property_cell p className et o catalog_entities results
      c ents hmap hnd hmem out qs heq
    rw [hempty] at hcell
    simpa using hcell

/-- Witness for C10: the vocabulary checker leaves the empty results dict
untouched for a container without datasets, while the compliance evaluator
stores the sentinel for the same container. -/
theorem claim10_vocab_skips_empty_witness :
    alGet (check_property_vocabulary "pp" "datasets" (fun _ _ => none)
        (fun _ _ => none) [("c1", ⟨["c1"], [], [], []⟩)] []) "c1" =
        alGet ([] : VocabResults) "c1" ∧
      getResult [("c1", [(propKey "pp" "dcat:Dataset", (⟨0, 0⟩ : PropertyObservation))])]
        "c1" (propKey "pp" "dcat:Dataset") = some ⟨0, 0⟩ := by
  have h := claim10_vocab_skips_empty "pp" "datasets" (fun _ _ => none)
    (fun _ _ => none) [("c1", ⟨["c1"], [], [], []⟩)] [] "c1" ⟨["c1"], [], [], []⟩
    (by decide) (List.mem_singleton.mpr rfl) rfl
  exact ⟨h.1, h.2 "dcat:Dataset" (fun _ _ => none) []
    rfl [("c1", [(propKey "pp" "dcat:Dataset", ⟨0, 0⟩)])] [] rfl⟩
